import Mathlib

/-!
Verification of the receipt-printer protocol engine (`lib/receiptio.js`,
current revision: the file with serial options, landscape tables and the
`-q` status flag). The JavaScript `print` promise executor is embedded
shallowly: bytes are `Nat`, buffers are `List Nat`, the per-mode `switch`
inside the `data` event handler becomes the pure function `step`, the
enclosing `do { ... } while (buf.length > 0 && buf.length < len)` loop
becomes the fuel-indexed `scanLoop`, and the mutable closure variables
(`state`, `drain`, the resolved promise value, whether the command buffer
was written) become the record `Sess`. Timer arithmetic (`setTimeout`,
`setInterval`) is embedded as absolute firing times in milliseconds.
-/

/-- closed set of terminal outcomes a print session can resolve with
(the result strings of `receiptio.js` and the exit-code table of the CLI). -/
inductive ResultCode
  | success
  | online
  | coveropen
  | paperempty
  | error
  | offline
  | disconnect
  | timeout
  | drawerclosed
  | draweropen
  deriving DecidableEq, Repr

/-- protocol mode selected from `printer.command` in the `switch` at the end
of `start` (escpos family, sii, star family); `unknown` models the `mode = ''`
default when the command language maps to no wire protocol. -/
inductive Mode
  | escpos
  | sii
  | star
  | unknown
  deriving DecidableEq, Repr

/-- mutable closure state of one print session: `state` (0 = closed,
1 = opened/handshake, 2 = ready, 3 = printing), the `drain` flag, the value
the promise has resolved with (`none` while pending; a JS promise keeps the
first value passed to `resolve`), and whether the prepared command buffer
has been written to the connection. -/
structure Sess where
  state : Nat
  drain : Bool
  result : Option ResultCode
  wrote : Bool
  deriving DecidableEq, Repr

/-- embedding of `close` (receiptio.js): when `state > 0` it destroys the
connection, clears both timers and sets `state = 0`; in every case it calls
`resolve(res)`, which keeps the first resolution value (promise semantics),
modelled by `Option.getD`. -/
def close (s : Sess) (r : ResultCode) : Sess :=
  { s with state := 0, result := some (s.result.getD r) }

/-- one iteration of the body of the `do ... while` response-parsing loop in
the `data` event handler, for mode `m`, status-only flag `q` (`params.q`).
`wr` is the boolean returned by `conn.write` for whichever drain-recording
write this iteration performs (backpressure is environment-determined).
Branches mirror the JavaScript `switch (mode) / switch (state)` exactly,
one definition per `case` of the inner state switch; writes that do not
touch the parse state (DLE ENQ, the ASB enable sequences) are reflected
only in their `drain` assignment, and the command-buffer write
additionally sets `wrote`. -/
def stepEscpos1 (q wr : Bool) (s : Sess) (buf : List Nat) :
    Sess × List Nat :=
  let b0 := buf.getD 0 0
  -- parse realtime status
  if b0 &&& 0x97 = 0x16 then (close s .coveropen, buf)
  else if b0 &&& 0xb3 = 0x32 then (close s .paperempty, buf)
  else if b0 &&& 0xd3 = 0x52 then
    -- error: write DLE ENQ n, arm a 1-second timer resolving 'error'
    ({ s with drain := wr }, buf)
  else if q = true ∧ b0 &&& 0x93 = 0x12 then (close s .online, buf)
  else if b0 &&& 0x93 = 0x12 then
    -- ready: clear buffer, write ESC @ GS a 0xff, arm the recovery timers
    ({ s with state := 2, drain := wr }, [])
  else (s, buf.tail)

/-- block-data skip of the escpos decoder:
`const i = buf.indexOf(0); if (i > 0) buf = buf.subarray(i)`. -/
def skipToNul (s : Sess) (buf : List Nat) : Sess × List Nat :=
  match buf.findIdx? (fun x => x == 0) with
  | some i => if 0 < i then (s, buf.drop i) else (s, buf)
  | none => (s, buf)

def stepEscpos23 (wr : Bool) (s : Sess) (buf : List Nat) :
    Sess × List Nat :=
  let b0 := buf.getD 0 0
  if b0 = 0x35 ∨ b0 = 0x37 ∨ b0 = 0x3b ∨ b0 = 0x3d ∨ b0 = 0x5f then
    -- block data: skip to the next NUL byte, if any
    skipToNul s buf
  else if b0 &&& 0x90 = 0 then
    if s.state = 3 ∧ s.drain = true then (close s .success, buf)
    else (s, buf.tail)
  else if b0 &&& 0x93 = 0x10 then
    if 3 < buf.length then
      let b1 := buf.getD 1 0
      let b2 := buf.getD 2 0
      let b3 := buf.getD 3 0
      if b1 &&& 0x90 = 0 ∧ b2 &&& 0x90 = 0 ∧ b3 &&& 0x90 = 0 then
        if b0 &&& 0x20 = 0x20 then (close s .coveropen, buf)
        else if b2 &&& 0x0c = 0x0c then (close s .paperempty, buf)
        else if ¬ b1 &&& 0x2c = 0 then (close s .error, buf)
        else if s.state = 2 then
          -- ready to print: write the command buffer, arm the print deadline
          ({ s with state := 3, drain := wr, wrote := true }, buf.drop 4)
        else (s, buf.drop 4)
      else (s, buf)
    else (s, buf)
  else (s, buf.tail)

def stepSii1 (s : Sess) (_buf : List Nat) : Sess × List Nat :=
  -- hello response: clear buffer, write GS a 0xff (drain not recorded)
  ({ s with state := 2 }, [])

def stepSii2 (q wr : Bool) (s : Sess) (buf : List Nat) :
    Sess × List Nat :=
  let b0 := buf.getD 0 0
  if b0 &&& 0xf0 = 0xc0 then
    if 7 < buf.length then
      let b1 := buf.getD 1 0
      if b1 &&& 0xf8 = 0xd8 then (close s .coveropen, buf)
      else if b1 &&& 0xf1 = 0xd1 then (close s .paperempty, buf)
      else if ¬ b0 &&& 0x0b = 0 then (close s .error, buf)
      else if q = true then (close s .online, buf)
      else
        ({ s with state := 3, drain := wr, wrote := true }, buf.drop 8)
    else (s, buf)
  else (s, buf.tail)

def stepSii3 (s : Sess) (buf : List Nat) : Sess × List Nat :=
  let b0 := buf.getD 0 0
  if b0 &&& 0xf0 = 0x80 then
    if s.drain = true then (close s .success, buf) else (s, buf.tail)
  else if b0 &&& 0xf0 = 0xc0 then
    if 7 < buf.length then
      let b1 := buf.getD 1 0
      if b1 &&& 0xf8 = 0xd8 then (close s .coveropen, buf)
      else if b1 &&& 0xf1 = 0xd1 then (close s .paperempty, buf)
      else if ¬ b0 &&& 0x0b = 0 then (close s .error, buf)
      else (s, buf.drop 8)
    else (s, buf)
  else (s, buf.tail)

/-- length of a star realtime/automatic status frame, computed from bits of
its first two bytes: `((buf[0] >> 2 & 0x08) | (buf[0] >> 1 & 0x07)) + (buf[1] >> 6 & 0x02)`. -/
def starFrameLen (b0 b1 : Nat) : Nat :=
  (((b0 >>> 2) &&& 0x08) ||| ((b0 >>> 1) &&& 0x07)) + ((b1 >>> 6) &&& 0x02)

def stepStar1 (q wr : Bool) (s : Sess) (buf : List Nat) :
    Sess × List Nat :=
  let b0 := buf.getD 0 0
  if b0 &&& 0xf1 = 0x21 then
    if starFrameLen b0 (buf.getD 1 0) ≤ buf.length then
      if buf.getD 2 0 &&& 0x20 = 0x20 then (close s .coveropen, buf)
      else if buf.getD 5 0 &&& 0x08 = 0x08 then (close s .paperempty, buf)
      else if ¬ buf.getD 3 0 &&& 0x2c = 0 ∨ ¬ buf.getD 4 0 &&& 0x0a = 0 then
        (close s .error, buf)
      else if q = true then (close s .online, buf)
      else
        -- clear buffer, write the rewritten command buffer, arm the deadline
        ({ s with state := 2, drain := wr, wrote := true }, [])
    else (s, buf)
  else (s, buf)  -- no else branch in the source: buffer left as is

def stepStar23 (s : Sess) (buf : List Nat) : Sess × List Nat :=
  let b0 := buf.getD 0 0
  if b0 &&& 0xf1 = 0x21 then
    if starFrameLen b0 (buf.getD 1 0) ≤ buf.length then
      if buf.getD 2 0 &&& 0x20 = 0x20 then (close s .coveropen, buf)
      else if buf.getD 5 0 &&& 0x08 = 0x08 then (close s .paperempty, buf)
      else if ¬ buf.getD 3 0 &&& 0x2c = 0 ∨ ¬ buf.getD 4 0 &&& 0x0a = 0 then
        (close s .error, buf)
      else if s.state = 3 ∧ s.drain = true then (close s .success, buf)
      else ({ s with state := 3 }, buf.drop (starFrameLen b0 (buf.getD 1 0)))
    else (s, buf)
  else (s, buf.tail)

/-- dispatch of one loop iteration over `switch (mode)` and the state. -/
def step (m : Mode) (q : Bool) (wr : Bool) (s : Sess) (buf : List Nat) :
    Sess × List Nat :=
  match m with
  | .escpos =>
    if s.state = 1 then stepEscpos1 q wr s buf
    else if s.state = 2 ∨ s.state = 3 then stepEscpos23 wr s buf
    else (s, buf)
  | .sii =>
    if s.state = 1 then stepSii1 s buf
    else if s.state = 2 then stepSii2 q wr s buf
    else if s.state = 3 then stepSii3 s buf
    else (s, buf)
  | .star =>
    if s.state = 1 then stepStar1 q wr s buf
    else if s.state = 2 ∨ s.state = 3 then stepStar23 s buf
    else (s, buf)
  | .unknown => (s, buf)

/-- the `do { ... } while (buf.length > 0 && buf.length < len)` loop of the
`data` handler, run with explicit fuel; `o` supplies the `conn.write`
return value of iteration `i`. The guard re-reads the buffer length saved
at the start of the iteration (`len`), so the loop continues only while the
buffer is non-empty and strictly shorter than it was. -/
def scanLoop (fuel : Nat) (m : Mode) (q : Bool) (o : Nat → Bool) (i : Nat)
    (s : Sess) (buf : List Nat) : Sess × List Nat :=
  match fuel with
  | 0 => (s, buf)
  | f + 1 =>
    let r := step m q (o i) s buf
    if 0 < r.2.length ∧ r.2.length < buf.length then
      scanLoop f m q o (i + 1) r.1 r.2
    else r

/-- one `data` event: append the chunk to the receive buffer and run the
parsing loop to quiescence (fuel one more than the buffer length, which
`claim10_scan_terminates` shows is enough). -/
def dataEvent (m : Mode) (q : Bool) (o : Nat → Bool) (s : Sess)
    (buf chunk : List Nat) : Sess × List Nat :=
  let nb := buf ++ chunk
  scanLoop (nb.length + 1) m q o 0 s nb

/-- a whole sequence of `data` events; `o k i` is the write-return oracle of
iteration `i` within chunk `k`. -/
def runChunks (m : Mode) (q : Bool) (o : Nat → Nat → Bool) (k : Nat)
    (s : Sess) (buf : List Nat) : List (List Nat) → Sess × List Nat
  | [] => (s, buf)
  | c :: cs =>
    let r := dataEvent m q (o k) s buf c
    runChunks m q o (k + 1) r.1 r.2 cs

/-- hello sequence per mode, from the `switch (printer.command)` block:
DLE EOT 2 for the escpos family, ESC @ for sii, ESC ACK SOH for the star
family, empty when no wire protocol matches. -/
def helloBytes : Mode → List Nat
  | .escpos => [0x10, 0x04, 0x02]
  | .sii => [0x1b, 0x40]
  | .star => [0x1b, 0x06, 0x01]
  | .unknown => []

/-- absolute firing time of `setTimeout(f, delay)` armed at `armedAt`
(milliseconds; the timer fires unless cleared first, also for delay 0). -/
def setTimeoutFire (armedAt delay : Nat) : Nat := armedAt + delay

/-- absolute time of the `k`-th firing (0-based) of
`setInterval(f, period)` armed at `armedAt`. -/
def setIntervalFire (armedAt period k : Nat) : Nat := armedAt + period * (k + 1)

/-- recovery payload `'\x00'.repeat(8192) + hello`: 8192 zero bytes
followed by the hello sequence. -/
def recoverBytes (m : Mode) : List Nat := List.replicate 8192 0 ++ helloBytes m

/-- body of the recovery `setInterval` callback: the retransmission is
written only while `drain` is true. -/
def recoveryWrite (m : Mode) (drain : Bool) : Option (List Nat) :=
  if drain then some (recoverBytes m) else none

/-- arm time of the recovery machinery: the outer `setTimeout(..., 2000)`
armed when the hello was written at `t0`. -/
def recoveryArmTime (t0 : Nat) : Nat := setTimeoutFire t0 2000

/-- absolute time of the `k`-th recovery retransmission: the 1000 ms
`setInterval` armed inside the 2-second timer callback. -/
def recoveryWriteTime (t0 k : Nat) : Nat :=
  setIntervalFire (recoveryArmTime t0) 1000 k

/-- absolute time the `setTimeout(() => close('offline'), 10000)` armed in
the same callback fires. -/
def offlineFireTime (t0 : Nat) : Nat := setTimeoutFire (recoveryArmTime t0) 10000

/-- JavaScript `Math.trunc` on an exact rational: rounding toward zero. -/
def jsTrunc (x : ℚ) : ℤ := if x < 0 then ⌈x⌉ else ⌊x⌋

/-- effective print timeout in seconds:
`t >= 0 && t <= 3600 ? Math.trunc(t) : 300` where `t = Number(params.t)`;
`none` models a NaN (unparseable `-t` value), whose comparisons are false. -/
def printTimeout (t : Option ℚ) : Nat :=
  match t with
  | some x => if 0 ≤ x ∧ x ≤ 3600 then (jsTrunc x).toNat else 300
  | none => 300

/-- absolute firing time of the print deadline
`setTimeout(() => close('timeout'), timeout * 1000)` armed when the
command buffer is written at `sendAt`. -/
def deadlineFireTime (sendAt : Nat) (t : Option ℚ) : Nat :=
  setTimeoutFire sendAt (printTimeout t * 1000)

/-- session outcome when, after the command buffer is sent at `sendAt`, no
further frame ever arrives: nothing clears the deadline timer, so it fires
at `deadlineFireTime` and runs `close('timeout')`. -/
def noCompletionOutcome (s : Sess) (sendAt : Nat) (t : Option ℚ) :
    Sess × Nat :=
  (close s .timeout, deadlineFireTime sendAt t)

/-- cpl option of `convertOption`:
`c >= 24 && c <= 96 ? Math.trunc(c) : 48` with `c = Number(params.c)`;
`none` models NaN. -/
def cplOf (c : Option ℚ) : Nat :=
  match c with
  | some x => if 24 ≤ x ∧ x ≤ 96 then (jsTrunc x).toNat else 48
  | none => 48

/-- outcome of the destination dispatch at the end of the `print` promise
executor: a live session over one of the three transports, an immediate
resolution, or (empty destination) resolving with the output of
`transform(receiptmd, printer)` itself. -/
inductive PrintOutcome (α : Type _)
  | net
  | serial
  | usb
  | resolved (r : ResultCode)
  | transformed (out : α)
  deriving DecidableEq, Repr

/-- regex `/^\/dev\/usb\/lp/` applied to the destination. -/
def usbMatch (d : List Char) : Bool :=
  d.take 11 == ("/dev/usb/lp").data

/-- JavaScript `destination.replace(/:.*/, '')`: the destination up to the
first colon. -/
def colonStrip (d : List Char) : List Char :=
  d.takeWhile (fun c => c ≠ ':')

/-- case-insensitive path comparison (`toLowerCase` on both sides). -/
def lowerEq (a b : List Char) : Bool :=
  a.map Char.toLower == b.map Char.toLower

/-- embedding of `isSerialPort`: the destination (with any `:options`
suffix removed) matches some enumerated port path, case-insensitively.
`ports` is the environment-supplied `serialport.list()` result. -/
def isSerialPort (ports : List (List Char)) (dest : List Char) : Bool :=
  ports.any (fun p => lowerEq p (colonStrip dest))

/-- the `// open port` dispatch chain of `print`: `net.isIP(dest)` (the
environment-supplied `ip`), then `isSerialPort`, then the USB device
pattern, then `else if (dest)` resolving `disconnect`, and finally — empty
destination — `resolve(await transform(receiptmd, printer))`, whose value
`out` is the external transformer's output. -/
def printDispatch {α : Type _} (ip : Bool) (ports : List (List Char))
    (dest : List Char) (out : α) : PrintOutcome α :=
  if ip then .net
  else if isSerialPort ports dest then .serial
  else if usbMatch dest then .usb
  else if ¬ dest = [] then .resolved .disconnect
  else .transformed out

/-- serial parity values accepted by the destination suffix
(`{ n: 'none', e: 'even', o: 'odd' }`). -/
inductive SerialParity
  | nonePar
  | even
  | odd
  deriving DecidableEq, Repr

/-- options object handed to the SerialPort constructor. When the extended
suffix does not match, the source sets only `baudRate: 115200` and the
serialport library defaults apply: parity none, 8 data bits, 1 stop bit,
no rts/cts, no xon/xoff. -/
structure SerialOpen where
  path : List Char
  baudRate : Nat
  parity : SerialParity
  dataBits : Nat
  stopBits : Nat
  rtscts : Bool
  xon : Bool
  deriving DecidableEq, Repr

/-- match a literal digit sequence at the head of the input. -/
def matchLit (pat s : List Char) : Option (List Char) :=
  if s.take pat.length == pat then some (s.drop pat.length) else none

/-- baud-rate alternatives of the regex `(?:24|48|96|192|384|576|1152)00`,
in the regex's alternation order, paired with their numeric values. -/
def baudAlts : List (List Char × Nat) :=
  [(['2','4'], 2400), (['4','8'], 4800), (['9','6'], 9600),
   (['1','9','2'], 19200), (['3','8','4'], 38400), (['5','7','6'], 57600),
   (['1','1','5','2'], 115200)]

/-- match the baud-rate group (an alternative followed by `00`). -/
def matchBaud (s : List Char) : Option (Nat × List Char) :=
  baudAlts.findSome? (fun a =>
    (matchLit (a.1 ++ ['0','0']) s).map (fun r => (a.2, r)))

/-- the optional comma `,?` between suffix fields (the field classes never
contain a comma, so greedy consumption is exact). -/
def optComma (s : List Char) : List Char :=
  match s with
  | ',' :: r => r
  | _ => s

/-- match one character of a case-insensitive class such as `[neo]`,
returning it lowered. -/
def matchSet (cs : List Char) (s : List Char) : Option (Char × List Char) :=
  match s with
  | c :: r => if cs.contains c.toLower then some (c.toLower, r) else none
  | [] => none

/-- parity letter to SerialPort parity value. -/
def parityOf (c : Char) : SerialParity :=
  if c = 'e' then .even else if c = 'o' then .odd else .nonePar

/-- parse the part after the colon against
`((?:24|48|96|192|384|576|1152)00),?([neo]),?([78]),?([12]),?([nrx]?)$`
(case-insensitive): baud, parity, data bits and stop bits are all
required, only the flow-control letter may be absent, and the match must
reach the end of the string. Returns baud, parity, data bits, stop bits
and the lowered flow-control letter. -/
def parseSuffix (s : List Char) :
    Option (Nat × SerialParity × Nat × Nat × Option Char) :=
  (matchBaud s).bind (fun br =>
  (matchSet ['n','e','o'] (optComma br.2)).bind (fun pc =>
  (matchSet ['7','8'] (optComma pc.2)).bind (fun dc =>
  (matchSet ['1','2'] (optComma dc.2)).bind (fun sc =>
    match optComma sc.2 with
    | [] => some (br.1, parityOf pc.1, dc.1.toNat - 48, sc.1.toNat - 48, none)
    | c :: r =>
      if ['n','r','x'].contains c.toLower ∧ r = [] then
        some (br.1, parityOf pc.1, dc.1.toNat - 48, sc.1.toNat - 48,
          some c.toLower)
      else none))))

/-- embedding of the serial open path of `print`: the destination is split
by `/^([^:]*)(:((?:24|48|96|192|384|576|1152)00),?([neo]),?([78]),?([12]),?([nrx]?)$)?/i`;
when the optional suffix group matches, all line parameters are set from
it (`rtscts` iff the flow letter is `r`, xon/xoff iff it is `x`);
otherwise only `baudRate: 115200` is set and library defaults apply. -/
def serialOpen (dest : List Char) : SerialOpen :=
  let path := colonStrip dest
  match dest.drop path.length with
  | ':' :: suffix =>
    match parseSuffix suffix with
    | some r =>
      { path := path, baudRate := r.1, parity := r.2.1, dataBits := r.2.2.1,
        stopBits := r.2.2.2.1, rtscts := r.2.2.2.2 = some 'r',
        xon := r.2.2.2.2 = some 'x' }
    | none =>
      { path := path, baudRate := 115200, parity := .nonePar, dataBits := 8,
        stopBits := 1, rtscts := false, xon := false }
  | _ =>
    { path := path, baudRate := 115200, parity := .nonePar, dataBits := 8,
      stopBits := 1, rtscts := false, xon := false }

/-- luminance expression of the halftone loops, over exact rationals:
`((data[j]*.299 + data[j+1]*.587 + data[j+2]*.114 - 255) * data[j+3] + 65525) / 65525`. -/
def lumVal (dat : Nat → ℚ) (j : Nat) : ℚ :=
  ((dat j * (299 / 1000) + dat (j + 1) * (587 / 1000) +
    dat (j + 2) * (114 / 1000) - 255) * dat (j + 3) + 65525) / 65525

/-- error-diffusion state of one `image` call: the row-to-row carry array
`d` (one integer cell per pixel column, `Array(w).fill(0)` initially) and
the horizontal carry `e`. All stored quantities are integers: `e` is a
`Math.floor` result or its offset by 255, and `d` only accumulates integer
multiples of such values. -/
structure Dither where
  darr : List ℤ
  e : ℤ
  deriving DecidableEq, Repr

/-- cursor of the pixel scan: data index `j` (advanced 4 per pixel, exactly
the source's `j += 4`) and the in-row column index `i` (advanced only in
error-diffusion mode, exactly the source's `d[i++]`), plus the dither
state. -/
structure Scan where
  j : Nat
  i : Nat
  dst : Dither
  deriving DecidableEq, Repr

/-- one pixel of the halftone inner loop. `wA`/`wB` are the diffusion
weights: 5/7 in the escpos-family `image` (`(d[i] + e * 5) / 16`,
`d[i] += e * 7`) and 7/5 in the star `image`. `pw` models
`x ↦ Math.pow(x, 1 / gamma)` for the fixed gamma of the call. Returns the
updated packing byte and scan state. -/
def pixelStep (grad : Bool) (pw : ℚ → ℚ) (th : ℚ) (wA wB : ℤ)
    (dat : Nat → ℚ) (p : Nat) (b : Nat) (sc : Scan) : Nat × Scan :=
  let f : ℤ := ⌊(((sc.dst.darr.getD sc.i 0) + sc.dst.e * wA : ℤ) : ℚ) / 16 +
    pw (lumVal dat sc.j) * 255⌋
  if grad then
    let d1 := sc.dst.darr.set sc.i (sc.dst.e * 3)
    let dark := (f : ℚ) < th
    let b1 := if dark then b ||| (128 >>> p) else b
    let e1 := if dark then f else f - 255
    let d2 := if 0 < sc.i then d1.set (sc.i - 1) (d1.getD (sc.i - 1) 0 + e1)
      else d1
    let d3 := d2.set sc.i (d2.getD sc.i 0 + e1 * wB)
    (b1, { j := sc.j + 4, i := sc.i + 1, dst := { darr := d3, e := e1 } })
  else
    (if (f : ℚ) < th then b ||| (128 >>> p) else b, { sc with j := sc.j + 4 })

/-- the `for (let p = 0; p < q; p++)` loop packing `q` pixels (most
significant bit first) into one byte, starting at bit position `p` with
accumulated byte `b`. -/
def groupLoop (grad : Bool) (pw : ℚ → ℚ) (th : ℚ) (wA wB : ℤ)
    (dat : Nat → ℚ) : Nat → Nat → Nat → Scan → Nat × Scan
  | 0, _, b, sc => (b, sc)
  | q + 1, p, b, sc =>
    let r := pixelStep grad pw th wA wB dat p b sc
    groupLoop grad pw th wA wB dat q (p + 1) r.1 r.2

/-- the `for (let x = 0; x < w; x += 8)` loop of one scan line: `n` is the
number of byte groups left, `rem` the number of pixels left in the row
(`q = Math.min(w - x, 8)` per group); emits one packed byte per group. -/
def rowGroups (grad : Bool) (pw : ℚ → ℚ) (th : ℚ) (wA wB : ℤ)
    (dat : Nat → ℚ) : Nat → Nat → Scan → List Nat × Scan
  | 0, _, sc => ([], sc)
  | n + 1, rem, sc =>
    let q := min rem 8
    let r := groupLoop grad pw th wA wB dat q 0 0 sc
    let rest := rowGroups grad pw th wA wB dat n (rem - q) r.2
    (r.1 :: rest.1, rest.2)

/-- the scan-line loop: each row restarts `let i = 0, e = 0` while the
carry array `d` and the data index `j` persist across rows (and across the
source's row-chunking, which only interleaves pixel-independent command
headers between groups of rows and is therefore not reflected in the
payload bytes collected here). -/
def rowsLoop (grad : Bool) (pw : ℚ → ℚ) (th : ℚ) (wA wB : ℤ)
    (dat : Nat → ℚ) (w : Nat) : Nat → Scan → List Nat × Scan
  | 0, sc => ([], sc)
  | r + 1, sc =>
    let sc0 : Scan := { j := sc.j, i := 0, dst := { darr := sc.dst.darr, e := 0 } }
    let row := rowGroups grad pw th wA wB dat ((w + 7) / 8) w sc0
    let rest := rowsLoop grad pw th wA wB dat w r row.2
    (row.1 ++ rest.1, rest.2)

/-- packed monochrome halftone payload of one `image` call for a `w × h`
RGBA raster `dat` (byte `dat (4*(y*w+x) + c)` is channel `c` of pixel
`(x, y)`): threshold `th`, gamma through `pw`, `grad` the error-diffusion
flag (`this.gradient`), `wA`/`wB` the family diffusion weights. -/
def encodeHalftone (grad : Bool) (pw : ℚ → ℚ) (th : ℚ) (wA wB : ℤ)
    (w h : Nat) (dat : Nat → ℚ) : List Nat :=
  (rowsLoop grad pw th wA wB dat w h
    { j := 0, i := 0, dst := { darr := List.replicate w 0, e := 0 } }).1

/-- first byte of the receive buffer is matched by no decoder branch of
mode `m` in session state `st` — the condition of the final `else` of each
family's state dispatch (star's handshake state has no such `else`, but
the same condition leaves its `if` without firing). -/
def unrecognizedByte (m : Mode) (st : Nat) (b : Nat) : Prop :=
  match m with
  | .escpos =>
    (st = 1 ∧ ¬ b &&& 0x97 = 0x16 ∧ ¬ b &&& 0xb3 = 0x32 ∧
      ¬ b &&& 0xd3 = 0x52 ∧ ¬ b &&& 0x93 = 0x12) ∨
    ((st = 2 ∨ st = 3) ∧ ¬ b = 0x35 ∧ ¬ b = 0x37 ∧ ¬ b = 0x3b ∧
      ¬ b = 0x3d ∧ ¬ b = 0x5f ∧ ¬ b &&& 0x90 = 0 ∧ ¬ b &&& 0x93 = 0x10)
  | .sii =>
    (st = 2 ∧ ¬ b &&& 0xf0 = 0xc0) ∨
    (st = 3 ∧ ¬ b &&& 0xf0 = 0x80 ∧ ¬ b &&& 0xf0 = 0xc0)
  | .star => (st = 1 ∨ st = 2 ∨ st = 3) ∧ ¬ b &&& 0xf1 = 0x21
  | .unknown => False

/-- states a status-only session can occupy, per mode: with `params.q` set
the escpos and star families resolve `online` instead of entering their
ready states, and sii resolves at its first clean automatic status, so the
printing state is never entered. -/
def qSafe (m : Mode) (s : Sess) : Prop :=
  s.wrote = false ∧
    match m with
    | .escpos => s.state = 0 ∨ s.state = 1
    | .sii => s.state = 0 ∨ s.state = 1 ∨ s.state = 2
    | .star => s.state = 0 ∨ s.state = 1
    | .unknown => True


lemma skipToNul_len (s : Sess) (buf : List Nat) :
    (skipToNul s buf).2.length ≤ buf.length := by
  simp only [skipToNul]
  split
  · split_ifs <;> simp [List.length_drop]
  · simp

lemma stepEscpos1_len (q wr : Bool) (s : Sess) (buf : List Nat) :
    (stepEscpos1 q wr s buf).2.length ≤ buf.length := by
  simp only [stepEscpos1]
  split_ifs <;> simp [List.length_tail]

lemma stepEscpos23_len (wr : Bool) (s : Sess) (buf : List Nat) :
    (stepEscpos23 wr s buf).2.length ≤ buf.length := by
  simp only [stepEscpos23]
  split_ifs <;>
    simp [List.length_tail, List.length_drop, skipToNul_len]

lemma stepSii2_len (q wr : Bool) (s : Sess) (buf : List Nat) :
    (stepSii2 q wr s buf).2.length ≤ buf.length := by
  simp only [stepSii2]
  split_ifs <;> simp [List.length_tail, List.length_drop]

lemma stepSii3_len (s : Sess) (buf : List Nat) :
    (stepSii3 s buf).2.length ≤ buf.length := by
  simp only [stepSii3]
  split_ifs <;> simp [List.length_tail, List.length_drop]

lemma stepStar1_len (q wr : Bool) (s : Sess) (buf : List Nat) :
    (stepStar1 q wr s buf).2.length ≤ buf.length := by
  simp only [stepStar1]
  split_ifs <;> simp [List.length_tail]

lemma stepStar23_len (s : Sess) (buf : List Nat) :
    (stepStar23 s buf).2.length ≤ buf.length := by
  simp only [stepStar23]
  split_ifs <;> simp [List.length_tail, List.length_drop]

lemma step_len (m : Mode) (q wr : Bool) (s : Sess) (buf : List Nat) :
    (step m q wr s buf).2.length ≤ buf.length := by
  cases m <;> simp only [step] <;> (try split_ifs) <;>
    first
      | exact stepEscpos1_len q wr s buf
      | exact stepEscpos23_len wr s buf
      | exact stepSii2_len q wr s buf
      | exact stepSii3_len s buf
      | exact stepStar1_len q wr s buf
      | exact stepStar23_len s buf
      | simp [stepSii1]

lemma scanLoop_stab : ∀ (n : Nat) (m : Mode) (q : Bool) (o : Nat → Bool)
    (i : Nat) (s : Sess) (buf : List Nat), buf.length ≤ n → ∀ k,
    scanLoop (n + 1) m q o i s buf = scanLoop (n + 1 + k) m q o i s buf := by
  intro n
  induction n using Nat.strong_induction_on with
  | _ n ih =>
    intro m q o i s buf hle k
    rw [show n + 1 + k = (n + k) + 1 by omega]
    simp only [scanLoop]
    by_cases hc : 0 < (step m q (o i) s buf).2.length ∧
        (step m q (o i) s buf).2.length < buf.length
    · rw [if_pos hc, if_pos hc]
      obtain ⟨n', rfl⟩ : ∃ n', n = n' + 1 := ⟨n - 1, by omega⟩
      refine ih n' (by omega) m q o (i + 1) _ _ ?_ k
      omega
    · rw [if_neg hc, if_neg hc]

/-- C10: one invocation of the data-event scan loop terminates after
finitely many iterations: the step body never grows the buffer, and the
loop guard demands a strict shrink of a non-empty buffer, so fuel
`buf.length + 1` already reaches the loop's final value — any further
fuel changes nothing. -/
theorem claim10_scan_terminates (m : Mode) (q : Bool) (o : Nat → Bool)
    (i : Nat) (s : Sess) (buf : List Nat) (k : Nat) :
    (step m q (o i) s buf).2.length ≤ buf.length ∧
    scanLoop (buf.length + 1) m q o i s buf =
      scanLoop (buf.length + 1 + k) m q o i s buf :=
  ⟨step_len m q (o i) s buf, scanLoop_stab buf.length m q o i s buf le_rfl k⟩

lemma skipToNul_fst (s : Sess) (buf : List Nat) : (skipToNul s buf).1 = s := by
  simp only [skipToNul]
  split
  · split_ifs <;> rfl
  · rfl

lemma stepEscpos1_result (q wr : Bool) (s : Sess) (buf : List Nat) (x : ResultCode)
    (hr : s.result = some x) : (stepEscpos1 q wr s buf).1.result = some x := by
  simp only [stepEscpos1]
  split_ifs <;> simp [close, hr]

lemma stepEscpos23_result (wr : Bool) (s : Sess) (buf : List Nat) (x : ResultCode)
    (hr : s.result = some x) : (stepEscpos23 wr s buf).1.result = some x := by
  simp only [stepEscpos23]
  split_ifs <;> simp [close, hr, skipToNul_fst]

lemma stepSii2_result (q wr : Bool) (s : Sess) (buf : List Nat) (x : ResultCode)
    (hr : s.result = some x) : (stepSii2 q wr s buf).1.result = some x := by
  simp only [stepSii2]
  split_ifs <;> simp [close, hr]

lemma stepSii3_result (s : Sess) (buf : List Nat) (x : ResultCode)
    (hr : s.result = some x) : (stepSii3 s buf).1.result = some x := by
  simp only [stepSii3]
  split_ifs <;> simp [close, hr]

lemma stepStar1_result (q wr : Bool) (s : Sess) (buf : List Nat) (x : ResultCode)
    (hr : s.result = some x) : (stepStar1 q wr s buf).1.result = some x := by
  simp only [stepStar1]
  split_ifs <;> simp [close, hr]

lemma stepStar23_result (s : Sess) (buf : List Nat) (x : ResultCode)
    (hr : s.result = some x) : (stepStar23 s buf).1.result = some x := by
  simp only [stepStar23]
  split_ifs <;> simp [close, hr]

lemma step_result (m : Mode) (q wr : Bool) (s : Sess) (buf : List Nat)
    (x : ResultCode) (hr : s.result = some x) :
    (step m q wr s buf).1.result = some x := by
  cases m <;> simp only [step] <;> (try split_ifs) <;>
    first
      | exact stepEscpos1_result q wr s buf x hr
      | exact stepEscpos23_result wr s buf x hr
      | exact stepSii2_result q wr s buf x hr
      | exact stepSii3_result s buf x hr
      | exact stepStar1_result q wr s buf x hr
      | exact stepStar23_result s buf x hr
      | simp [stepSii1, hr]

/-- C1: `close` always leaves the session in the terminal state 0, always
leaves the promise resolved with some ResultCode, and a second `close`
after a first one changes nothing — neither the session state nor the
already-produced result. Moreover no scan step ever alters an
already-produced result: once a session has resolved, its value is final,
so exactly one ResultCode is produced. -/
theorem claim1_close_idempotent (s : Sess) (r r' : ResultCode) :
    (close s r).state = 0 ∧ ((close s r).result).isSome = true ∧
    close (close s r) r' = close s r ∧
    (∀ (m : Mode) (q wr : Bool) (buf : List Nat),
      (step m q wr s buf).1.result = s.result ∨ s.result = none) := by
  refine ⟨rfl, by simp [close], by cases s with
    | mk st d res w => rcases res <;> simp [close], ?_⟩
  intro m q wr buf
  rcases hr : s.result with _ | x
  · exact Or.inr rfl
  · exact Or.inl (step_result m q wr s buf x hr)

/-- C2 counterexample: with `-t 0` the effective timeout is 0 seconds, and
the print deadline `setTimeout(() => close('timeout'), 0)` armed at the
command send fires at the send instant itself; with no completion frame
arriving, the session resolves `timeout` — refuting "t = 0 means no
timeout, so the session never resolves `timeout`". -/
theorem claim2_counterexample :
    printTimeout (some 0) = 0 ∧
    (noCompletionOutcome ⟨3, true, none, true⟩ 5 (some 0)).2 = 5 ∧
    (noCompletionOutcome ⟨3, true, none, true⟩ 5 (some 0)).1.result =
      some ResultCode.timeout :=
  ⟨rfl, rfl, rfl⟩

/-- C2 amended: the effective print deadline is trunc(t) seconds for
0 ≤ t ≤ 3600 and 300 seconds otherwise (out of range or unparseable), but
t = 0 does not mean "no timeout": it arms a deadline that fires at the
send instant itself, resolving `timeout` whenever nothing resolved the
session earlier. -/
theorem claim2_amended :
    (∀ t : ℚ, 0 ≤ t → t ≤ 3600 → printTimeout (some t) = (⌊t⌋).toNat) ∧
    (∀ t : ℚ, t < 0 ∨ 3600 < t → printTimeout (some t) = 300) ∧
    printTimeout none = 300 ∧
    (∀ (sendAt : Nat) (s : Sess),
      (noCompletionOutcome s sendAt (some 0)).2 = sendAt ∧
      (noCompletionOutcome s sendAt (some 0)).1.result =
        some (s.result.getD ResultCode.timeout)) := by
  refine ⟨?_, ?_, rfl, ?_⟩
  · intro t h1 h2
    simp [printTimeout, jsTrunc, h1, h2, not_lt.mpr h1]
  · intro t h
    have hn : ¬ (0 ≤ t ∧ t ≤ 3600) := by
      rintro ⟨h1, h2⟩
      rcases h with h | h <;> linarith
    simp [printTimeout, hn]
  · intro sendAt s
    refine ⟨?_, rfl⟩
    simp [noCompletionOutcome, deadlineFireTime, setTimeoutFire, printTimeout,
      jsTrunc]

theorem claim2_witness :
    ((0 : ℚ) ≤ (5 / 2 : ℚ)) ∧ ((5 / 2 : ℚ) ≤ 3600) ∧
    printTimeout (some (5 / 2 : ℚ)) = 2 ∧
    printTimeout (some 5000) = 300 ∧
    (noCompletionOutcome ⟨3, true, none, true⟩ 7 (some 0)).2 = 7 := by
  have h1 : (0 : ℚ) ≤ (5 / 2 : ℚ) := by norm_num
  have h2 : (5 / 2 : ℚ) ≤ 3600 := by norm_num
  refine ⟨h1, h2, ?_, ?_, ?_⟩
  · have hf : (⌊(5 / 2 : ℚ)⌋ : ℤ) = 2 := by norm_num
    rw [(claim2_amended.1) (5 / 2 : ℚ) h1 h2, hf]
    rfl
  · exact (claim2_amended.2.1) 5000 (Or.inr (by norm_num))
  · exact ((claim2_amended.2.2.2) 7 ⟨3, true, none, true⟩).1

/-- C3: with the hello written at time t0 and no qualifying response ever
received, the 2-second timer arms a 1-second recovery interval whose first
firing — the first recovery retransmission, 8192 zero bytes followed by
the hello sequence, written only while drain is true — occurs at
t0 + 3000 ms, and the offline deadline armed at the same 2-second mark
fires at t0 + 12000 ms, where `close` resolves the still-pending session
`offline`. -/
theorem claim3_recovery_offline_times (t0 : Nat) (m : Mode) :
    recoveryWriteTime t0 0 = t0 + 3000 ∧
    offlineFireTime t0 = t0 + 12000 ∧
    recoveryWrite m true = some (List.replicate 8192 0 ++ helloBytes m) ∧
    recoveryWrite m false = none ∧
    (∀ (st : Nat) (d w : Bool),
      (close ⟨st, d, none, w⟩ ResultCode.offline).result =
        some ResultCode.offline) := by
  refine ⟨?_, ?_, rfl, rfl, fun st d w => rfl⟩
  · simp [recoveryWriteTime, setIntervalFire, recoveryArmTime, setTimeoutFire]
  · simp [offlineFireTime, recoveryArmTime, setTimeoutFire]

/-- C5: when the destination is empty, `print` bypasses the transport and
the protocol state machine entirely and resolves with the external
transformer's output itself, for any output value: the dispatch chain
falls through to `resolve(await transform(receiptmd, printer))`. The
hypotheses say the environment classifies the empty string neither as an
IP literal (first argument `false`) nor as an enumerated serial port (no
listed port has an empty path). -/
theorem claim5_empty_destination {α : Type _} (ports : List (List Char))
    (out : α) (hports : ∀ p ∈ ports, ¬ p = []) :
    printDispatch false ports [] out = PrintOutcome.transformed out := by
  have hs : isSerialPort ports [] = false := by
    simp only [isSerialPort, colonStrip, List.takeWhile_nil, List.any_eq_false]
    intro p hp
    simpa [lowerEq, List.map_eq_nil_iff] using hports p hp
  simp [printDispatch, hs, usbMatch]

theorem claim5_witness :
    (∀ p ∈ [['C', 'O', 'M', '1']], ¬ p = []) ∧
    printDispatch false [['C', 'O', 'M', '1']] [] [1, 2, 3] =
      PrintOutcome.transformed [1, 2, 3] :=
  ⟨by decide, claim5_empty_destination [['C', 'O', 'M', '1']] [1, 2, 3]
    (by decide)⟩

/-- C7: the characters-per-line value handed to the command transformer is
trunc(c) whenever 24 ≤ c ≤ 96 and 48 otherwise, including when the option
is absent or unparseable (`convertOption` of the current source; the older
revision bundled alongside caps the range at 48 instead of 96). -/
theorem claim7_cpl :
    (∀ c : ℚ, 24 ≤ c → c ≤ 96 → cplOf (some c) = (⌊c⌋).toNat) ∧
    (∀ c : ℚ, c < 24 ∨ 96 < c → cplOf (some c) = 48) ∧
    cplOf none = 48 := by
  refine ⟨?_, ?_, rfl⟩
  · intro c h1 h2
    simp [cplOf, jsTrunc, h1, h2, not_lt.mpr (by linarith : (0 : ℚ) ≤ c)]
  · intro c h
    have hn : ¬ (24 ≤ c ∧ c ≤ 96) := by
      rintro ⟨h1, h2⟩
      rcases h with h | h <;> linarith
    simp [cplOf, hn]

theorem claim7_witness :
    ((24 : ℚ) ≤ (85 / 2 : ℚ)) ∧ ((85 / 2 : ℚ) ≤ 96) ∧
    cplOf (some (85 / 2 : ℚ)) = 42 ∧ cplOf (some 120) = 48 := by
  have h1 : (24 : ℚ) ≤ (85 / 2 : ℚ) := by norm_num
  have h2 : (85 / 2 : ℚ) ≤ 96 := by norm_num
  refine ⟨h1, h2, ?_, ?_⟩
  · have hf : (⌊(85 / 2 : ℚ)⌋ : ℤ) = 42 := by norm_num
    rw [claim7_cpl.1 (85 / 2 : ℚ) h1 h2, hf]
    rfl
  · exact claim7_cpl.2.1 120 (Or.inr (by norm_num))

/-- C4 counterexample: in star mode during the handshake state an
unrecognized first byte (0x00 fails the `(buf[0] & 0xf1) === 0x21` test)
is not discarded at all — the source has no `else` there, so the buffer is
left unchanged rather than advanced by exactly one byte (and the session
is not resolved). -/
theorem claim4_counterexample :
    (step .star false true ⟨1, true, none, false⟩ [0]).2 = [0] ∧
    ¬ ([0] : List Nat) = List.tail [0] ∧
    (step .star false true ⟨1, true, none, false⟩ [0]).1.result = none := by
  decide

/-- C4 amended: an unrecognized first byte never resolves the session and
never changes its state; it is absorbed by discarding exactly one byte —
except in the star family's handshake state, where the source has no
`else` branch and the byte is left in place (the scan pass simply ends
until more data arrives). -/
theorem claim4_amended (m : Mode) (q wr : Bool) (s : Sess) (b : Nat)
    (rest : List Nat) (h : unrecognizedByte m s.state b) :
    (step m q wr s (b :: rest)).1 = s ∧
    (step m q wr s (b :: rest)).2 =
      (if m = Mode.star ∧ s.state = 1 then b :: rest else rest) := by
  cases m <;> simp only [unrecognizedByte] at h
  · -- escpos
    rcases h with ⟨h1, h2, h3, h4, h5⟩ | ⟨h1, h2, h3, h4, h5, h6, h7, h8⟩
    · simp [step, stepEscpos1, h1, h2, h3, h4, h5]
    · have hn1 : ¬ s.state = 1 := by rcases h1 with h | h <;> omega
      simp [step, stepEscpos23, hn1, h1, h2, h3, h4, h5, h6, h7, h8]
  · -- sii
    rcases h with ⟨h1, h2⟩ | ⟨h1, h2, h3⟩
    · simp [step, stepSii2, h1, h2]
    · simp [step, stepSii3, h1, h2, h3]
  · -- star
    obtain ⟨h1, h2⟩ := h
    rcases h1 with h1 | h1
    · simp [step, stepStar1, h1, h2]
    · have hn1 : ¬ s.state = 1 := by rcases h1 with h | h <;> omega
      simp [step, stepStar23, hn1, h1, h2]

theorem claim4_witness :
    unrecognizedByte Mode.escpos 1 0xff ∧
    (step .escpos false true ⟨1, true, none, false⟩ [0xff, 7]).1 =
      ⟨1, true, none, false⟩ ∧
    (step .escpos false true ⟨1, true, none, false⟩ [0xff, 7]).2 = [7] := by
  have h : unrecognizedByte Mode.escpos
      (Sess.state ⟨1, true, none, false⟩) 0xff := by
    simp only [unrecognizedByte]
    decide
  refine ⟨h, ?_, ?_⟩
  · exact (claim4_amended .escpos false true ⟨1, true, none, false⟩ 0xff [7] h).1
  · have h2 :=
      (claim4_amended .escpos false true ⟨1, true, none, false⟩ 0xff [7] h).2
    simpa using h2

lemma step_qSafe (m : Mode) (wr : Bool) (s : Sess) (buf : List Nat)
    (h : qSafe m s) : qSafe m (step m true wr s buf).1 := by
  obtain ⟨hw, hst⟩ := h
  cases m <;> simp only [qSafe] at hst ⊢
  · -- escpos
    rcases hst with h0 | h1
    · simp only [step, h0]
      exact ⟨hw, Or.inl h0⟩
    · simp only [step, h1, if_pos, stepEscpos1]
      split_ifs <;> simp_all [close]
  · -- sii
    rcases hst with h0 | h1 | h2
    · simp only [step, h0]
      exact ⟨hw, Or.inl h0⟩
    · simp only [step, h1, if_pos, stepSii1]
      simp [hw]
    · have hn1 : ¬ s.state = 1 := by omega
      simp only [step, h2, hn1, if_pos, if_neg, stepSii2]
      split_ifs <;> simp_all [close]
  · -- star
    rcases hst with h0 | h1
    · simp only [step, h0]
      exact ⟨hw, Or.inl h0⟩
    · simp only [step, h1, if_pos, stepStar1]
      split_ifs <;> simp_all [close]
  · exact ⟨hw, trivial⟩

lemma scanLoop_qSafe (fuel : Nat) (m : Mode) (o : Nat → Bool) (i : Nat)
    (s : Sess) (buf : List Nat) (h : qSafe m s) :
    qSafe m (scanLoop fuel m true o i s buf).1 := by
  induction fuel generalizing i s buf with
  | zero => exact h
  | succ f ih =>
    simp only [scanLoop]
    split_ifs
    · exact ih (i + 1) _ _ (step_qSafe m (o i) s buf h)
    · exact step_qSafe m (o i) s buf h

lemma runChunks_qSafe (chunks : List (List Nat)) (m : Mode)
    (o : Nat → Nat → Bool) (k : Nat) (s : Sess) (buf : List Nat)
    (h : qSafe m s) :
    qSafe m (runChunks m true o k s buf chunks).1 := by
  induction chunks generalizing k s buf with
  | nil => exact h
  | cons c cs ih =>
    simp only [runChunks]
    exact ih (k + 1) _ _ (scanLoop_qSafe _ m (o k) 0 s (buf ++ c) h)

/-- C6 counterexample: the byte 0x16 satisfies `(b & 0x93) == 0x12`, yet a
status-only escpos session in the handshake state resolves `coveropen`
for it, not `online`: the cover-open mask is tested first. -/
theorem claim6_counterexample :
    (0x16 &&& 0x93 = 0x12) ∧
    (step .escpos true true ⟨1, true, none, false⟩ [0x16]).1.result =
      some ResultCode.coveropen ∧
    ¬ (step .escpos true true ⟨1, true, none, false⟩ [0x16]).1.result =
      some ResultCode.online := by
  decide

/-- C6 amended: a status-only session (`-q`) never writes the command
buffer, in any mode, over any sequence of data events from the opened
state; and in the escpos handshake state a realtime status byte with
`(b & 0x93) == 0x12` that moreover matches none of the three fault masks
resolves `online`. -/
theorem claim6_amended :
    (∀ (m : Mode) (o : Nat → Nat → Bool) (d : Bool)
      (chunks : List (List Nat)),
      (runChunks m true o 0 ⟨1, d, none, false⟩ [] chunks).1.wrote = false) ∧
    (∀ (b : Nat) (rest : List Nat) (d wr : Bool),
      ¬ b &&& 0x97 = 0x16 → ¬ b &&& 0xb3 = 0x32 → ¬ b &&& 0xd3 = 0x52 →
      b &&& 0x93 = 0x12 →
      (step .escpos true wr ⟨1, d, none, false⟩ (b :: rest)).1.result =
        some ResultCode.online) := by
  constructor
  · intro m o d chunks
    have h0 : qSafe m ⟨1, d, none, false⟩ := by
      cases m <;> simp [qSafe]
    exact (runChunks_qSafe chunks m o 0 ⟨1, d, none, false⟩ [] h0).1
  · intro b rest d wr h1 h2 h3 h4
    simp [step, stepEscpos1, close, h1, h2, h3, h4]

theorem claim6_witness :
    (runChunks .escpos true (fun _ _ => true) 0 ⟨1, true, none, false⟩ []
      [[0x12]]).1.wrote = false ∧
    (¬ 0x12 &&& 0x97 = 0x16) ∧ (¬ 0x12 &&& 0xb3 = 0x32) ∧
    (¬ 0x12 &&& 0xd3 = 0x52) ∧ (0x12 &&& 0x93 = 0x12) ∧
    (step .escpos true true ⟨1, true, none, false⟩ [0x12]).1.result =
      some ResultCode.online :=
  ⟨claim6_amended.1 .escpos (fun _ _ => true) true [[0x12]],
   by decide, by decide, by decide, by decide,
   claim6_amended.2 0x12 [] true true (by decide) (by decide) (by decide)
     (by decide)⟩

/-- C8 counterexample: a serial destination with baud rate only,
`COM1:9600`, does not open at 9600 baud: the suffix regex requires baud,
parity, data bits and stop bits together, so the partial suffix fails to
match and the port is opened with the default 115200. -/
theorem claim8_counterexample :
    (serialOpen ("COM1:9600").data).baudRate = 115200 ∧
    ¬ (serialOpen ("COM1:9600").data).baudRate = 9600 := by
  decide

/-- C8 amended: the serial suffix must supply baud, parity, data bits and
stop bits together (commas optional, case-insensitive); only the
flow-control letter may be omitted. A matching suffix sets all parameters;
any non-matching suffix — including a baud-only one — is ignored entirely
and every parameter falls back to the defaults 115200 / none / 8 / 1 / no
flow control, as does a destination with no suffix at all. -/
theorem claim8_amended :
    serialOpen ("COM1:9600").data =
      ⟨("COM1").data, 115200, .nonePar, 8, 1, false, false⟩ ∧
    serialOpen ("COM1:9600n81").data =
      ⟨("COM1").data, 9600, .nonePar, 8, 1, false, false⟩ ∧
    serialOpen ("COM1:115200,E,7,2,R").data =
      ⟨("COM1").data, 115200, .even, 7, 2, true, false⟩ ∧
    serialOpen ("COM1:9600,n,8,1,x").data =
      ⟨("COM1").data, 9600, .nonePar, 8, 1, false, true⟩ ∧
    serialOpen ("/dev/ttyS0").data =
      ⟨("/dev/ttyS0").data, 115200, .nonePar, 8, 1, false, false⟩ := by
  refine ⟨by decide, by decide, by decide, by decide, by decide⟩

lemma pixelStep_j (grad : Bool) (pw : ℚ → ℚ) (th : ℚ) (wA wB : ℤ)
    (dat : Nat → ℚ) (p b : Nat) (sc : Scan) :
    (pixelStep grad pw th wA wB dat p b sc).2.j = sc.j + 4 := by
  simp only [pixelStep]
  split_ifs <;> rfl

lemma pixelStep_congr (grad : Bool) (pw : ℚ → ℚ) (th : ℚ) (wA wB : ℤ)
    (dat1 dat2 : Nat → ℚ) (p b : Nat) (sc : Scan)
    (h : ∀ x, sc.j ≤ x → x < sc.j + 4 → dat1 x = dat2 x) :
    pixelStep grad pw th wA wB dat1 p b sc =
      pixelStep grad pw th wA wB dat2 p b sc := by
  have hl : lumVal dat1 sc.j = lumVal dat2 sc.j := by
    simp only [lumVal, h sc.j (by omega) (by omega),
      h (sc.j + 1) (by omega) (by omega), h (sc.j + 2) (by omega) (by omega),
      h (sc.j + 3) (by omega) (by omega)]
  simp only [pixelStep, hl]

lemma groupLoop_j (grad : Bool) (pw : ℚ → ℚ) (th : ℚ) (wA wB : ℤ)
    (dat : Nat → ℚ) (q : Nat) : ∀ (p b : Nat) (sc : Scan),
    (groupLoop grad pw th wA wB dat q p b sc).2.j = sc.j + 4 * q := by
  induction q with
  | zero => intro p b sc; simp [groupLoop]
  | succ n ih =>
    intro p b sc
    simp only [groupLoop]
    rw [ih, pixelStep_j]
    omega

lemma groupLoop_congr (grad : Bool) (pw : ℚ → ℚ) (th : ℚ) (wA wB : ℤ)
    (dat1 dat2 : Nat → ℚ) (q : Nat) : ∀ (p b : Nat) (sc : Scan),
    (∀ x, sc.j ≤ x → x < sc.j + 4 * q → dat1 x = dat2 x) →
    groupLoop grad pw th wA wB dat1 q p b sc =
      groupLoop grad pw th wA wB dat2 q p b sc := by
  induction q with
  | zero => intro p b sc _; rfl
  | succ n ih =>
    intro p b sc h
    simp only [groupLoop]
    rw [pixelStep_congr grad pw th wA wB dat1 dat2 p b sc
      (fun x h1 h2 => h x h1 (by omega))]
    apply ih
    intro x hx1 hx2
    rw [pixelStep_j] at hx1 hx2
    exact h x (by omega) (by omega)

lemma rowGroups_j (grad : Bool) (pw : ℚ → ℚ) (th : ℚ) (wA wB : ℤ)
    (dat : Nat → ℚ) (n : Nat) : ∀ (rem : Nat) (sc : Scan), rem ≤ 8 * n →
    (rowGroups grad pw th wA wB dat n rem sc).2.j = sc.j + 4 * rem := by
  induction n with
  | zero =>
    intro rem sc hle
    simp only [rowGroups]
    omega
  | succ n ih =>
    intro rem sc hle
    simp only [rowGroups]
    rw [ih (rem - min rem 8) _ (by omega), groupLoop_j]
    omega

lemma rowGroups_congr (grad : Bool) (pw : ℚ → ℚ) (th : ℚ) (wA wB : ℤ)
    (dat1 dat2 : Nat → ℚ) (n : Nat) : ∀ (rem : Nat) (sc : Scan), rem ≤ 8 * n →
    (∀ x, sc.j ≤ x → x < sc.j + 4 * rem → dat1 x = dat2 x) →
    rowGroups grad pw th wA wB dat1 n rem sc =
      rowGroups grad pw th wA wB dat2 n rem sc := by
  induction n with
  | zero => intro rem sc _ _; rfl
  | succ n ih =>
    intro rem sc hle h
    have hg := groupLoop_congr grad pw th wA wB dat1 dat2 (min rem 8) 0 0 sc
      (fun x h1 h2 => h x h1 (by omega))
    have hrest := ih (rem - min rem 8)
      (groupLoop grad pw th wA wB dat2 (min rem 8) 0 0 sc).2 (by omega)
      (fun x h1 h2 => by
        rw [groupLoop_j] at h1 h2
        exact h x (by omega) (by omega))
    simp only [rowGroups]
    rw [hg, hrest]

lemma rowsLoop_congr (grad : Bool) (pw : ℚ → ℚ) (th : ℚ) (wA wB : ℤ)
    (dat1 dat2 : Nat → ℚ) (w : Nat) (r : Nat) : ∀ (sc : Scan),
    (∀ x, sc.j ≤ x → x < sc.j + 4 * (w * r) → dat1 x = dat2 x) →
    rowsLoop grad pw th wA wB dat1 w r sc =
      rowsLoop grad pw th wA wB dat2 w r sc := by
  induction r with
  | zero => intro sc _; rfl
  | succ r ih =>
    intro sc h
    have hmul : w * (r + 1) = w * r + w := Nat.mul_succ w r
    have hj0 : (⟨sc.j, 0, ⟨sc.dst.darr, 0⟩⟩ : Scan).j = sc.j := rfl
    have hrow := rowGroups_congr grad pw th wA wB dat1 dat2 ((w + 7) / 8) w
      ⟨sc.j, 0, ⟨sc.dst.darr, 0⟩⟩ (by omega)
      (fun x h1 h2 => h x (hj0 ▸ h1) (by rw [hj0] at h2; omega))
    have hrest := ih
      (rowGroups grad pw th wA wB dat2 ((w + 7) / 8) w
        ⟨sc.j, 0, ⟨sc.dst.darr, 0⟩⟩).2
      (fun x h1 h2 => by
        rw [rowGroups_j grad pw th wA wB dat2 ((w + 7) / 8) w _ (by omega),
          hj0] at h1 h2
        exact h x (by omega) (by omega))
    simp only [rowsLoop]
    rw [hrow, hrest]

/-- C9: the halftone encoding is deterministic and depends on nothing but
its declared inputs: for a fixed error-diffusion flag, gamma power
function, threshold, diffusion weights and image extent, any two RGBA data
sources that agree on the `4·w·h` bytes of the raster produce
byte-identical packed monochrome payloads — there is no randomness and no
hidden state (the dither carry array and all indices are reinitialized per
call). -/
theorem claim9_deterministic (grad : Bool) (pw : ℚ → ℚ) (th : ℚ)
    (wA wB : ℤ) (w h : Nat) (dat1 dat2 : Nat → ℚ)
    (hdat : ∀ k, k < 4 * w * h → dat1 k = dat2 k) :
    encodeHalftone grad pw th wA wB w h dat1 =
      encodeHalftone grad pw th wA wB w h dat2 := by
  unfold encodeHalftone
  have hj0 : (⟨0, 0, ⟨List.replicate w 0, 0⟩⟩ : Scan).j = 0 := rfl
  rw [rowsLoop_congr grad pw th wA wB dat1 dat2 w h
    ⟨0, 0, ⟨List.replicate w 0, 0⟩⟩
    (fun x _ h2 => hdat x (by rw [hj0] at h2; rw [Nat.mul_assoc]; omega))]

theorem claim9_witness :
    (∀ k : Nat, k < 4 * 2 * 1 →
      (fun k : Nat => if k < 8 then (k : ℚ) else 0) k =
        (fun k : Nat => if k < 8 then (k : ℚ) else 37) k) ∧
    encodeHalftone true id 128 5 7 2 1 (fun k => if k < 8 then (k : ℚ) else 0) =
      encodeHalftone true id 128 5 7 2 1
        (fun k => if k < 8 then (k : ℚ) else 37) :=
  ⟨by
    intro k hk
    show (if k < 8 then (k : ℚ) else 0) = (if k < 8 then (k : ℚ) else 37)
    rw [if_pos (show k < 8 by omega), if_pos (show k < 8 by omega)],
   claim9_deterministic true id 128 5 7 2 1 _ _ (by
    intro k hk
    show (if k < 8 then (k : ℚ) else 0) = (if k < 8 then (k : ℚ) else 37)
    rw [if_pos (show k < 8 by omega), if_pos (show k < 8 by omega)])⟩
